import Mathlib

/-!
Verification of the InvoiceAgent repository against its specification.

Each section embeds one slice of the source (shallow embedding: Python
numbers become rationals, dicts become association lists, fallible code
returns Option or Except) and proves or refutes the corresponding claim.
-/

namespace InvoiceAgent

/-! ## Rounding

Python `round(x, 2)` rounds to 2 decimal places using round-half-to-even. -/

/-- Round-half-to-even on rationals, the tie-breaking rule of Python `round`. -/
def roundHalfEven (q : ℚ) : ℤ :=
  let f := ⌊q⌋
  let r := q - f
  if r < 1/2 then f
  else if 1/2 < r then f + 1
  else if f % 2 = 0 then f else f + 1

/-- Embeds Python `round(x, 2)`. -/
def pyRound2 (q : ℚ) : ℚ := (roundHalfEven (q * 100) : ℚ) / 100

/-! ## ai/models.py: InvoiceItem (pydantic model)

`InvoiceItem` declares `hours`, `rate`, `amount` with `ge=0.0` field
constraints and a model validator `validate_amount` which raises when
`abs(amount - round(hours * rate, 2)) > 0.01`.  Construction is embedded
as a function returning `none` exactly when pydantic raises. -/

structure AiInvoiceItem where
  description : String
  hours : ℚ
  unit : String
  rate : ℚ
  amount : ℚ
  category : Option String
deriving DecidableEq

/-- Embeds construction of `invoiceagent.ai.models.InvoiceItem`: the
`ge=0.0` field constraints on `hours`, `rate`, `amount`, then the
`validate_amount` model validator. -/
def mkInvoiceItem (description : String) (hours : ℚ) (unit : String)
    (rate : ℚ) (amount : ℚ) (category : Option String) : Option AiInvoiceItem :=
  if hours < 0 then none
  else if rate < 0 then none
  else if amount < 0 then none
  else if 1/100 < |amount - pyRound2 (hours * rate)| then none
  else some ⟨description, hours, unit, rate, amount, category⟩

/-! ## db/models.py: InvoiceStatus and rows -/

inductive InvoiceStatus where
  | draft
  | sent
  | paid
  | overdue
  | canceled
deriving DecidableEq

structure InvoiceRow where
  id : ℕ
  clientId : ℕ
  invoiceNumber : String
  status : InvoiceStatus
deriving DecidableEq

structure WorkLogRow where
  id : ℕ
  projectId : ℕ
  invoiceId : Option ℕ
  hours : ℚ
  description : String
  category : Option String
  billable : Bool
deriving DecidableEq

structure ItemRow where
  id : ℕ
  invoiceId : ℕ
deriving DecidableEq

/-! ## cli/invoice_commands.py: update_invoice_status and
db/repositories/invoice.py: InvoiceRepository.update_status

Both assign the requested status unconditionally: the CLI does
`invoice.status = new_status; session.commit()` and the repository does
`invoice.status = status; session.flush()`.  Neither inspects the current
status. -/

/-- Embeds the mutation performed by the CLI `update_invoice_status`
command on the fetched invoice row. -/
def updateInvoiceStatusCli (inv : InvoiceRow) (new : InvoiceStatus) : InvoiceRow :=
  { inv with status := new }

/-- Embeds `InvoiceRepository.update_status` over a table of invoice rows:
the row with the given id gets the new status, other rows are untouched.
A missing id leaves the table unchanged (the method returns None then). -/
def updateStatusRepo (tbl : List InvoiceRow) (invoiceId : ℕ)
    (new : InvoiceStatus) : List InvoiceRow :=
  tbl.map (fun r => if r.id = invoiceId then { r with status := new } else r)

/-- The transition relation asserted by the claim: DRAFT to SENT, SENT to
PAID, SENT to OVERDUE, or any non-PAID state to CANCELED. -/
def claimAllowedTransition : InvoiceStatus → InvoiceStatus → Bool
  | .draft, .sent => true
  | .sent, .paid => true
  | .sent, .overdue => true
  | .paid, .canceled => false
  | _, .canceled => true
  | _, _ => false

/-- C7 counterexample: the status-update operation applied to a PAID
invoice with requested status DRAFT performs the transition PAID to DRAFT,
which is not among the transitions the claim allows.  The code never
inspects the current status. -/
theorem update_status_paid_to_draft_cex :
    (updateInvoiceStatusCli ⟨1, 1, "INV-20240301-01", .paid⟩ .draft).status
        = .draft ∧
    claimAllowedTransition .paid .draft = false ∧
    (updateStatusRepo [⟨1, 1, "INV-20240301-01", .paid⟩] 1 .draft).map
        (fun r => r.status) = [.draft] := by
  exact ⟨rfl, rfl, rfl⟩

/-- C7 (amended): the status-update operations set the status of the
targeted invoice to exactly the requested value regardless of its current
status, leaving all other fields and rows unchanged; consequently every
transition, including PAID back to DRAFT or SENT, is performed.  The
forward-only state machine of the claim is not enforced by the code. -/
theorem update_status_sets_requested (inv : InvoiceRow) (new : InvoiceStatus)
    (tbl : List InvoiceRow) (invoiceId : ℕ) :
    (updateInvoiceStatusCli inv new).status = new ∧
    (updateInvoiceStatusCli inv new).id = inv.id ∧
    (updateInvoiceStatusCli inv new).clientId = inv.clientId ∧
    (updateInvoiceStatusCli inv new).invoiceNumber = inv.invoiceNumber ∧
    (∀ old newS : InvoiceStatus, ∃ row : InvoiceRow,
      row.status = old ∧ (updateInvoiceStatusCli row newS).status = newS) ∧
    (∀ r ∈ updateStatusRepo tbl invoiceId new, r.id = invoiceId → r.status = new) := by
  refine ⟨rfl, rfl, rfl, rfl, ?_, ?_⟩
  · intro old newS
    exact ⟨⟨0, 0, "", old⟩, rfl, rfl⟩
  · intro r hr hid
    rcases List.mem_map.mp hr with ⟨r0, _, hmap⟩
    by_cases h0 : r0.id = invoiceId
    · simp only [h0, if_pos] at hmap
      exact hmap ▸ rfl
    · simp only [h0, if_neg, if_false] at hmap
      exact absurd (hmap ▸ hid) h0

/-! ## ai/ollama_client.py: structured_generate retry loop

`structured_generate` runs `for attempt in range(max_retries + 1)`; each
iteration sends one request with the current temperature, extracts the
content and tries to parse it.  On a parse failure (ValueError or
JSONDecodeError) in the final iteration (`attempt == max_retries`) it
returns the dict
`{"error": "Failed to parse structured response: " + str(e),
  "raw_response": str(response_data)}`;
on an earlier failure it sets
`temperature = max(0.1, temperature * 0.8)` and continues.

The attempt outcomes are abstracted by `attemptResult : Nat -> Except`
(the parse outcome of attempt i) and `rawResponse : Nat -> String`
(`str(response_data)` of attempt i); the network request of each
iteration is recorded by the list of temperatures sent, in order. -/

inductive SGResult (α : Type) where
  | ok (v : α)
  | errorDict (error : String) (rawResponse : String)
deriving DecidableEq

/-- The temperature decay applied before a retry:
`temperature = max(0.1, temperature * 0.8)`. -/
def sgRetryTemp (t : ℚ) : ℚ := max (1/10) (t * (8/10))

/-- Embeds the body of the `for attempt in range(max_retries + 1)` loop of
`structured_generate`.  The fuel argument is the number of remaining loop
iterations; `none` in the first component models falling off the loop
(unreachable when the fuel is `maxRetries + 1 - attempt`).  The second
component lists the temperature of every request sent. -/
def sgLoop {α : Type} (attemptResult : ℕ → Except String α)
    (rawResponse : ℕ → String) (maxRetries : ℕ) :
    ℕ → ℚ → ℕ → Option (SGResult α) × List ℚ
  | _, _, 0 => (none, [])
  | attempt, temp, fuel + 1 =>
    match attemptResult attempt with
    | .ok v => (some (.ok v), [temp])
    | .error e =>
      if attempt = maxRetries then
        (some (.errorDict ("Failed to parse structured response: " ++ e)
          (rawResponse attempt)), [temp])
      else
        let r := sgLoop attemptResult rawResponse maxRetries
          (attempt + 1) (sgRetryTemp temp) fuel
        (r.1, temp :: r.2)

/-- Embeds `OllamaClient.structured_generate` at the retry level: the loop
starts at attempt 0 with the caller temperature and has `max_retries + 1`
iterations available. -/
def structuredGenerate {α : Type} (attemptResult : ℕ → Except String α)
    (rawResponse : ℕ → String) (temperature : ℚ) (maxRetries : ℕ) :
    Option (SGResult α) × List ℚ :=
  sgLoop attemptResult rawResponse maxRetries 0 temperature (maxRetries + 1)

/-- The temperature sequence demanded by the claim: the first attempt uses
the caller temperature and each retry uses `max(0.1, 0.8 * previous)`. -/
def tempSeq (t : ℚ) : ℕ → List ℚ
  | 0 => []
  | n + 1 => t :: tempSeq (sgRetryTemp t) n

theorem tempSeq_length (t : ℚ) (n : ℕ) : (tempSeq t n).length = n := by
  induction n generalizing t with
  | zero => rfl
  | succ n ih => simp [tempSeq, ih]

theorem tempSeq_step (t : ℚ) (n i : ℕ) (hi : i + 1 < n) :
    (tempSeq t n).get? (i + 1) = ((tempSeq t n).get? i).map sgRetryTemp := by
  induction n generalizing t i with
  | zero => omega
  | succ n ih =>
    cases i with
    | zero =>
      cases n with
      | zero => omega
      | succ m => simp [tempSeq]
    | succ j =>
      have hj : j + 1 < n := by omega
      simpa [tempSeq] using ih (sgRetryTemp t) j hj

theorem sgLoop_all_fail {α : Type} (attemptResult : ℕ → Except String α)
    (rawResponse : ℕ → String) (m : ℕ)
    (hfail : ∀ i, i ≤ m → ∃ e, attemptResult i = .error e) :
    ∀ (k a : ℕ) (t : ℚ), a + k = m →
      ∃ e, attemptResult m = .error e ∧
        sgLoop attemptResult rawResponse m a t (k + 1) =
          (some (.errorDict ("Failed to parse structured response: " ++ e)
            (rawResponse m)), tempSeq t (k + 1)) := by
  intro k
  induction k with
  | zero =>
    intro a t ha
    obtain ⟨e, he⟩ := hfail m le_rfl
    refine ⟨e, he, ?_⟩
    have ha' : a = m := by omega
    subst ha'
    simp [sgLoop, he, tempSeq]
  | succ k ih =>
    intro a t ha
    obtain ⟨e, hme, hrec⟩ := ih (a + 1) (sgRetryTemp t) (by omega)
    obtain ⟨ea, hea⟩ := hfail a (by omega)
    refine ⟨e, hme, ?_⟩
    have hne : a ≠ m := by omega
    have h1 : sgLoop attemptResult rawResponse m a t (k + 1 + 1)
        = ((sgLoop attemptResult rawResponse m (a + 1) (sgRetryTemp t) (k + 1)).1,
           t :: (sgLoop attemptResult rawResponse m (a + 1) (sgRetryTemp t)
             (k + 1)).2) := by
      conv_lhs => rw [sgLoop]
      rw [hea]
      simp [hne]
    rw [h1, hrec]
    simp [tempSeq]

/-- C1: when every attempt fails to parse, `structured_generate` sends
exactly `max_retries + 1` requests, the temperature of request `i + 1` is
`max(0.1, 0.8 * (temperature of request i))`, and the call returns the
error-shaped dictionary carrying the last parse error and the raw response
of the last attempt, instead of raising. -/
theorem structured_generate_retry_exhaustion {α : Type}
    (attemptResult : ℕ → Except String α) (rawResponse : ℕ → String)
    (t0 : ℚ) (m : ℕ)
    (hfail : ∀ i, i ≤ m → ∃ e, attemptResult i = .error e) :
    (structuredGenerate attemptResult rawResponse t0 m).2.length = m + 1 ∧
    (structuredGenerate attemptResult rawResponse t0 m).2 = tempSeq t0 (m + 1) ∧
    (∀ i, i + 1 < m + 1 →
      (structuredGenerate attemptResult rawResponse t0 m).2.get? (i + 1) =
        ((structuredGenerate attemptResult rawResponse t0 m).2.get? i).map
          sgRetryTemp) ∧
    ∃ e, attemptResult m = .error e ∧
      (structuredGenerate attemptResult rawResponse t0 m).1 =
        some (.errorDict ("Failed to parse structured response: " ++ e)
          (rawResponse m)) := by
  obtain ⟨e, he, hloop⟩ :=
    sgLoop_all_fail attemptResult rawResponse m hfail m 0 t0 (by omega)
  have hsg : structuredGenerate attemptResult rawResponse t0 m =
      (some (.errorDict ("Failed to parse structured response: " ++ e)
        (rawResponse m)), tempSeq t0 (m + 1)) := hloop
  refine ⟨?_, ?_, ?_, e, he, ?_⟩
  · rw [hsg]; exact tempSeq_length t0 (m + 1)
  · rw [hsg]
  · intro i hi
    rw [hsg]
    exact tempSeq_step t0 (m + 1) i hi
  · rw [hsg]

/-- C1 witness: max_retries = 2 and an always-failing parse starting from
temperature 0.8 gives exactly 3 requests at temperatures
0.8, 0.64, 0.512 and the error-shaped result. -/
theorem structured_generate_retry_exhaustion_witness :
    (∀ i, i ≤ 2 → ∃ e, (fun _ : ℕ => (Except.error "bad" : Except String ℕ)) i
        = .error e) ∧
    (structuredGenerate (fun _ : ℕ => (Except.error "bad" : Except String ℕ))
        (fun _ => "resp") (4/5) 2).2.length = 2 + 1 ∧
    (structuredGenerate (fun _ : ℕ => (Except.error "bad" : Except String ℕ))
        (fun _ => "resp") (4/5) 2).2 = [4/5, 16/25, 64/125] := by
  have hfail : ∀ i, i ≤ 2 →
      ∃ e, (fun _ : ℕ => (Except.error "bad" : Except String ℕ)) i = .error e :=
    fun i _ => ⟨"bad", rfl⟩
  have h := structured_generate_retry_exhaustion
    (fun _ : ℕ => (Except.error "bad" : Except String ℕ))
    (fun _ => "resp") (4/5) 2 hfail
  refine ⟨hfail, h.1, ?_⟩
  rw [h.2.1]
  show [(4 : ℚ)/5, sgRetryTemp (4/5), sgRetryTemp (sgRetryTemp (4/5))] = _
  norm_num [sgRetryTemp, max_eq_right]

/-! ## ai/ollama_client.py: the response cache of structured_generate

`OllamaClient.__init__` sets `self.cache = {}` (an in-memory dict).  In
`structured_generate`, `cache_key` starts as None and is computed only
under the guard `if use_cache and self.cache:`; an empty dict is falsy in
Python, so on a fresh client the guard is false.  Saving a response is
guarded by `if use_cache and self.cache and cache_key:`, so nothing is
ever written either, and the TTL-checking on-disk helpers
`_get_from_cache` / `_save_to_cache` are never called by
`structured_generate` at all.  The cache dict is an association list, the
value stored is the serialized response, and `networkCalls` counts the
`/api/chat` requests made by the call (assuming the first attempt
parses, as in the cached-response claim). -/

structure CacheStepResult where
  response : String
  networkCalls : ℕ
  cacheAfter : List (String × String)
deriving DecidableEq

def lookupCache (cache : List (String × String)) (k : String) : Option String :=
  (cache.find? (fun p => p.1 = k)).map (fun p => p.2)

/-- Embeds the cache-handling slice of one `structured_generate` call:
`key` is the md5 fingerprint input
(prompt, system prompt, temperature, max_tokens, top_p, model, schema) and
`networkResponse` the response text the service would return. -/
def sgCacheStep (cache : List (String × String)) (useCache : Bool)
    (key : String) (networkResponse : String) : CacheStepResult :=
  let cacheKey : Option String :=
    if useCache && !cache.isEmpty then some key else none
  match cacheKey.bind (lookupCache cache) with
  | some v => ⟨v, 0, cache⟩
  | none =>
    let saved :=
      if useCache && !cache.isEmpty && cacheKey.isSome then
        (key, networkResponse) :: cache
      else cache
    ⟨networkResponse, 1, saved⟩

/-- C2 (code bug): on a fresh client (`self.cache = {}`), two consecutive
`structured_generate` calls with identical arguments and `use_cache=True`
both perform a network request and the cache stays empty, because
`use_cache and self.cache` is false for the falsy empty dict; no TTL is
ever consulted.  The claim (second call served from cache inside the TTL
window) is therefore violated by the code. -/
theorem structured_generate_cache_never_populated (k r1 r2 : String) :
    (sgCacheStep [] true k r1).networkCalls = 1 ∧
    (sgCacheStep [] true k r1).cacheAfter = [] ∧
    (sgCacheStep (sgCacheStep [] true k r1).cacheAfter true k r2).networkCalls
      = 1 ∧
    (sgCacheStep (sgCacheStep [] true k r1).cacheAfter true k r2).cacheAfter
      = [] := by
  exact ⟨rfl, rfl, rfl, rfl⟩

/-! ## cli/invoice_commands.py: delete_invoice and db/engine.py: get_session

`delete_invoice` runs inside one `with get_session() as session:` block:
it fetches the invoice (early return if absent), fetches the work logs
with `invoice_id == invoice_id` and sets `wl.invoice_id = None` on each,
deletes the invoice (the `cascade="all, delete-orphan"` relationship on
`Invoice.items` removes its items), and only then calls a single
`session.commit()`.  `get_session` commits on normal exit and rolls the
whole session back when an exception escapes the block. -/

structure Db where
  invoices : List InvoiceRow
  items : List ItemRow
  workLogs : List WorkLogRow
deriving DecidableEq

/-- Embeds the state change committed by the CLI `delete_invoice` command
(with confirmation given).  A missing invoice id leaves the database
unchanged, mirroring the early return. -/
def deleteInvoice (db : Db) (invoiceId : ℕ) : Db :=
  if db.invoices.any (fun r => r.id = invoiceId) then
    { invoices := db.invoices.filter (fun r => r.id ≠ invoiceId),
      items := db.items.filter (fun it => it.invoiceId ≠ invoiceId),
      workLogs := db.workLogs.map (fun wl =>
        if wl.invoiceId = some invoiceId then { wl with invoiceId := none }
        else wl) }
  else db

/-- Embeds `get_session`: the block either commits its final state or, on
any exception, rolls back so the pre-transaction state persists. -/
def runTransaction (step : Db → Except String Db) (db : Db) : Db :=
  match step db with
  | .ok db2 => db2
  | .error _ => db

/-- C5: deleting an existing invoice clears `invoice_id` on every work log
that referenced it while deleting no work-log row, removes the invoice and
its items, happens as one transactional step, and on an exception inside
the session nothing persists. -/
theorem delete_invoice_unlinks_work_logs (db : Db) (invoiceId : ℕ)
    (hex : ∃ r ∈ db.invoices, r.id = invoiceId) :
    (deleteInvoice db invoiceId).workLogs.length = db.workLogs.length ∧
    (∀ wl ∈ db.workLogs, wl.invoiceId = some invoiceId →
      { wl with invoiceId := none } ∈ (deleteInvoice db invoiceId).workLogs) ∧
    (∀ wl ∈ db.workLogs, wl.invoiceId ≠ some invoiceId →
      wl ∈ (deleteInvoice db invoiceId).workLogs) ∧
    (∀ r ∈ (deleteInvoice db invoiceId).invoices, r.id ≠ invoiceId) ∧
    (∀ it ∈ (deleteInvoice db invoiceId).items, it.invoiceId ≠ invoiceId) ∧
    runTransaction (fun d => .ok (deleteInvoice d invoiceId)) db
      = deleteInvoice db invoiceId ∧
    (∀ msg : String, runTransaction (fun _ => .error msg) db = db) := by
  obtain ⟨r0, hr0, hid0⟩ := hex
  have hany : db.invoices.any (fun r => r.id = invoiceId) = true :=
    List.any_eq_true.mpr ⟨r0, hr0, by simp [hid0]⟩
  have hdel : deleteInvoice db invoiceId =
      { invoices := db.invoices.filter (fun r => r.id ≠ invoiceId),
        items := db.items.filter (fun it => it.invoiceId ≠ invoiceId),
        workLogs := db.workLogs.map (fun wl =>
          if wl.invoiceId = some invoiceId then { wl with invoiceId := none }
          else wl) } := by
    unfold deleteInvoice
    rw [if_pos hany]
  refine ⟨?_, ?_, ?_, ?_, ?_, rfl, fun _ => rfl⟩
  · rw [hdel]; exact List.length_map _ _
  · intro wl hwl hlink
    rw [hdel]
    exact List.mem_map.mpr ⟨wl, hwl, by simp [hlink]⟩
  · intro wl hwl hfree
    rw [hdel]
    exact List.mem_map.mpr ⟨wl, hwl, by simp [hfree]⟩
  · intro r hr
    rw [hdel] at hr
    simpa using (List.mem_filter.mp hr).2
  · intro it hit
    rw [hdel] at hit
    simpa using (List.mem_filter.mp hit).2

/-- C5 witness: a database with one invoice, one item and two work logs
(one linked, one unbilled) satisfies all the deletion properties. -/
theorem delete_invoice_unlinks_work_logs_witness :
    (∃ r ∈ ({ invoices := [⟨1, 1, "INV-20240301-01", .draft⟩],
              items := [⟨1, 1⟩],
              workLogs := [⟨1, 1, some 1, 3, "Site work", none, true⟩,
                           ⟨2, 1, none, 2, "Other", none, true⟩] } : Db).invoices,
        r.id = 1) ∧
    (∀ wl ∈ ({ invoices := [⟨1, 1, "INV-20240301-01", .draft⟩],
               items := [⟨1, 1⟩],
               workLogs := [⟨1, 1, some 1, 3, "Site work", none, true⟩,
                            ⟨2, 1, none, 2, "Other", none, true⟩] } : Db).workLogs,
      wl.invoiceId = some 1 →
        { wl with invoiceId := none } ∈
          (deleteInvoice { invoices := [⟨1, 1, "INV-20240301-01", .draft⟩],
                           items := [⟨1, 1⟩],
                           workLogs := [⟨1, 1, some 1, 3, "Site work", none, true⟩,
                                        ⟨2, 1, none, 2, "Other", none, true⟩] } 1).workLogs) := by
  refine ⟨⟨⟨1, 1, "INV-20240301-01", .draft⟩, by simp, rfl⟩, ?_⟩
  exact (delete_invoice_unlinks_work_logs _ 1
    ⟨⟨1, 1, "INV-20240301-01", .draft⟩, by simp, rfl⟩).2.1

/-! ## Invoice aggregation

`generate_invoice` in cli/invoice_commands.py calls
`invoice_repo.create_invoice_from_work_logs(...)`, but no such method
exists anywhere in the source tree; only its caller is present.  The
aggregation algorithm is therefore modelled from the specification
(section 4.3: selection, grouping, numbering and pricing rules). -/

structure CalDate where
  year : ℕ
  month : ℕ
  day : ℕ
deriving DecidableEq

def CalDate.key (d : CalDate) : ℕ := d.year * 10000 + d.month * 100 + d.day

def dateLe (a b : CalDate) : Bool := a.key ≤ b.key

structure ProjectRow where
  id : ℕ
  clientId : ℕ
  hourlyRate : ℚ
deriving DecidableEq

structure FullWorkLog where
  id : ℕ
  projectId : ℕ
  invoiceId : Option ℕ
  workDate : CalDate
  hours : ℚ
  description : String
  category : Option String
  billable : Bool
deriving DecidableEq

def findProject (projects : List ProjectRow) (pid : ℕ) : Option ProjectRow :=
  projects.find? (fun p => p.id = pid)

/-- Modelled from the spec: selection rule of section 4.3 — a work log is
eligible iff `invoice_id is null AND billable = true AND
start_date <= work_date <= end_date AND project.client_id = client_id`. -/
def eligibleLog (projects : List ProjectRow) (clientId : ℕ)
    (startDate endDate : CalDate) (wl : FullWorkLog) : Bool :=
  wl.invoiceId = none && wl.billable && dateLe startDate wl.workDate &&
    dateLe wl.workDate endDate &&
    ((findProject projects wl.projectId).map (fun p => p.clientId)
      == some clientId)

def logCategory (wl : FullWorkLog) : String := wl.category.getD "General"

/-- Group insertion preserving first-appearance order of keys. -/
def insertGroup (key : ℕ × String) (wl : FullWorkLog) :
    List ((ℕ × String) × List FullWorkLog) →
    List ((ℕ × String) × List FullWorkLog)
  | [] => [(key, [wl])]
  | (k, ls) :: rest =>
    if k = key then (k, ls ++ [wl]) :: rest
    else (k, ls) :: insertGroup key wl rest

/-- Modelled from the spec: grouping rule of section 4.3 — eligible logs
grouped first by project, then by category (missing category defaults to
"General"). -/
def groupLogs (logs : List FullWorkLog) :
    List ((ℕ × String) × List FullWorkLog) :=
  logs.foldl (fun acc wl => insertGroup (wl.projectId, logCategory wl) wl acc) []

def firstSentence (s : String) : String := (s.splitOn ".").headD s

/-- Modelled from the spec: a group of one log keeps that log's
description; a larger group gets a synthesized summary, with the
"and k more tasks" suffix when more than 3 entries. -/
def groupDescription (cat : String) (logs : List FullWorkLog) : String :=
  match logs with
  | [l] => l.description
  | _ =>
    let descs := logs.map (fun l => l.description)
    if 3 < logs.length then
      cat ++ " work: " ++
        String.intercalate ", " ((descs.take 3).map firstSentence) ++
        " and " ++ toString (logs.length - 3) ++ " more tasks"
    else
      cat ++ " work: " ++ String.intercalate ", " (descs.map firstSentence)

structure GenItem where
  description : String
  hours : ℚ
  rate : ℚ
  amount : ℚ
  category : String
deriving DecidableEq

/-- Modelled from the spec: each group becomes one item with
`hours = sum of hours in the group`, `rate = project.hourly_rate`,
`amount = hours * rate`. -/
def groupToItem (projects : List ProjectRow) (key : ℕ × String)
    (logs : List FullWorkLog) : GenItem :=
  let rate := ((findProject projects key.1).map (fun p => p.hourlyRate)).getD 0
  let hours := (logs.map (fun l => l.hours)).sum
  { description := groupDescription key.2 logs, hours := hours, rate := rate,
    amount := hours * rate, category := key.2 }

def pad2 (n : ℕ) : String := if n < 10 then "0" ++ toString n else toString n

def pad4 (n : ℕ) : String :=
  if n < 10 then "000" ++ toString n
  else if n < 100 then "00" ++ toString n
  else if n < 1000 then "0" ++ toString n
  else toString n

def dateStamp (d : CalDate) : String := pad4 d.year ++ pad2 d.month ++ pad2 d.day

/-- The `INV-YYYYMMDD-` stem of invoice numbers generated on date `d`. -/
def invoiceStem (d : CalDate) : String := "INV-" ++ dateStamp d ++ "-"

/-- The numeric value of a non-empty all-digit character list. -/
def digitsVal? (cs : List Char) : Option ℕ :=
  if cs ≠ [] ∧ cs.all Char.isDigit then
    some (cs.foldl (fun a c => a * 10 + (c.toNat - 48)) 0)
  else none

/-- The sequence component of an invoice number under a given stem, when
the number starts with the stem and its remainder is numeric. -/
def invoiceSeqOf (stem num : String) : Option ℕ :=
  if stem.data.isPrefixOf num.data then digitsVal? (num.data.drop stem.data.length)
  else none

/-- The highest sequence among existing invoice numbers carrying the date
stem of `d` (0 when there is none). -/
def maxExistingSeq (existing : List String) (d : CalDate) : ℕ :=
  (existing.filterMap (invoiceSeqOf (invoiceStem d))).foldl max 0

/-- Modelled from the spec: numbering rule of section 4.3 — format
`INV-YYYYMMDD-NN` where `NN` is the next unused two-digit sequence for the
generation date, scanning existing numbers with that date stem and taking
`max(sequence) + 1`, starting at 1. -/
def nextInvoiceNumber (existing : List String) (today : CalDate) : String :=
  invoiceStem today ++ pad2 (maxExistingSeq existing today + 1)

structure GenInvoice where
  clientId : ℕ
  invoiceNumber : String
  status : InvoiceStatus
  items : List GenItem
  subtotal : ℚ
  taxRatePercent : ℚ
  taxAmount : Option ℚ
  totalAmount : ℚ
deriving DecidableEq

/-- Modelled from the spec: `create_invoice_from_work_logs`, the method
`generate_invoice` calls on the invoice repository but which is missing
from the source.  Selection, grouping, numbering and pricing follow
section 4.3: zero eligible logs produce no invoice; otherwise
`subtotal = sum of item amounts`,
`tax_amount = subtotal * (tax_rate_percent / 100)` present iff the rate is
positive, `total = subtotal + tax_amount`, initial status DRAFT. -/
def createInvoiceFromWorkLogs (projects : List ProjectRow)
    (allLogs : List FullWorkLog) (existingNumbers : List String)
    (clientId : ℕ) (startDate endDate issueDate : CalDate)
    (taxRatePercent : ℚ) : Option GenInvoice :=
  let logs := allLogs.filter (eligibleLog projects clientId startDate endDate)
  if logs.isEmpty then none
  else
    let items := (groupLogs logs).map (fun g => groupToItem projects g.1 g.2)
    let subtotal := (items.map (fun it => it.amount)).sum
    let taxAmount :=
      if 0 < taxRatePercent then some (subtotal * taxRatePercent / 100)
      else none
    some { clientId := clientId,
           invoiceNumber := nextInvoiceNumber existingNumbers issueDate,
           status := .draft,
           items := items,
           subtotal := subtotal,
           taxRatePercent := taxRatePercent,
           taxAmount := taxAmount,
           totalAmount := subtotal + taxAmount.getD 0 }

/-- C3: every generated invoice has `subtotal` equal to the sum of its
item amounts, `tax_amount = subtotal * (tax_rate_percent / 100)` present
exactly when the tax rate is positive, `total = subtotal + tax_amount`,
and status DRAFT; and the concrete scenario — one billable unbilled
3.0-hour log in range on a project with hourly rate 100, tax rate 0 —
yields exactly one item of amount 300 with subtotal and total 300. -/
theorem invoice_aggregation_pricing :
    (∀ (projects : List ProjectRow) (allLogs : List FullWorkLog)
        (nums : List String) (cid : ℕ) (s e iss : CalDate) (tr : ℚ)
        (inv : GenInvoice),
      createInvoiceFromWorkLogs projects allLogs nums cid s e iss tr
          = some inv →
        inv.subtotal = (inv.items.map (fun it => it.amount)).sum ∧
        inv.taxAmount =
          (if 0 < tr then some (inv.subtotal * tr / 100) else none) ∧
        inv.totalAmount = inv.subtotal + inv.taxAmount.getD 0 ∧
        inv.status = .draft) ∧
    (∃ inv : GenInvoice,
      createInvoiceFromWorkLogs [⟨1, 1, 100⟩]
          [⟨1, 1, none, ⟨2024, 3, 1⟩, 3, "Website build", none, true⟩] []
          1 ⟨2024, 3, 1⟩ ⟨2024, 3, 31⟩ ⟨2024, 3, 31⟩ 0 = some inv ∧
        inv.items.map (fun it => it.amount) = [300] ∧
        inv.subtotal = 300 ∧
        inv.taxAmount = none ∧
        inv.totalAmount = 300 ∧
        inv.status = .draft) := by
  constructor
  · intro projects allLogs nums cid s e iss tr inv hgen
    unfold createInvoiceFromWorkLogs at hgen
    by_cases hemp :
        (allLogs.filter (eligibleLog projects cid s e)).isEmpty
    · rw [if_pos hemp] at hgen
      exact absurd hgen (by simp)
    · rw [if_neg hemp] at hgen
      obtain rfl := (Option.some_inj.mp hgen).symm
      refine ⟨rfl, ?_, rfl, rfl⟩
      by_cases htr : 0 < tr
      · simp [htr]
      · simp [htr]
  · refine ⟨_, rfl, ?_, ?_, ?_, ?_, ?_⟩ <;>
      simp [eligibleLog, dateLe, CalDate.key, findProject, groupLogs,
        insertGroup, logCategory, groupToItem, groupDescription, List.filter,
        List.find?] <;>
      norm_num

/-- C3 witness: the pricing laws instantiated at the concrete scenario. -/
theorem invoice_aggregation_pricing_witness :
    ∃ inv : GenInvoice,
      createInvoiceFromWorkLogs [⟨1, 1, 100⟩]
          [⟨1, 1, none, ⟨2024, 3, 1⟩, 3, "Website build", none, true⟩] []
          1 ⟨2024, 3, 1⟩ ⟨2024, 3, 31⟩ ⟨2024, 3, 31⟩ 0 = some inv ∧
        inv.subtotal = (inv.items.map (fun it => it.amount)).sum ∧
        inv.taxAmount = (if (0 : ℚ) < 0 then some (inv.subtotal * 0 / 100)
          else none) ∧
        inv.totalAmount = inv.subtotal + inv.taxAmount.getD 0 ∧
        inv.status = .draft := by
  refine ⟨_, rfl, ?_⟩
  exact invoice_aggregation_pricing.1 [⟨1, 1, 100⟩]
    [⟨1, 1, none, ⟨2024, 3, 1⟩, 3, "Website build", none, true⟩] []
    1 ⟨2024, 3, 1⟩ ⟨2024, 3, 31⟩ ⟨2024, 3, 31⟩ 0 _ rfl

/-- C4: every generated invoice number is the stem `INV-YYYYMMDD-` of the
generation date followed by the zero-padded successor of the highest
existing sequence under that stem (01 when none exists); with existing
numbers INV-20240301-01 and INV-20240301-02 on 2024-03-01 the next number
is INV-20240301-03. -/
theorem invoice_numbering_next_sequence :
    (∀ (existing : List String) (d : CalDate),
      nextInvoiceNumber existing d =
        invoiceStem d ++ pad2 (maxExistingSeq existing d + 1)) ∧
    (∀ d : CalDate, nextInvoiceNumber [] d = invoiceStem d ++ "01") ∧
    nextInvoiceNumber ["INV-20240301-01", "INV-20240301-02"] ⟨2024, 3, 1⟩
      = "INV-20240301-03" := by
  refine ⟨fun existing d => rfl, ?_, ?_⟩
  · intro d
    show invoiceStem d ++ pad2 (maxExistingSeq [] d + 1) = invoiceStem d ++ "01"
    have h0 : maxExistingSeq [] d = 0 := rfl
    rw [h0]
    have h1 : pad2 (0 + 1) = "01" := by decide
    rw [h1]
  · decide

/-- C6: with all required fields present and non-negative hours, rate and
amount, constructing an `InvoiceItem` succeeds if and only if
`abs(amount - round(hours * rate, 2)) <= 0.01`; outside the tolerance the
validator raises and no item is produced. -/
theorem invoice_item_amount_validation (d : String) (h : ℚ) (u : String)
    (r a : ℚ) (c : Option String) (hh : 0 ≤ h) (hr : 0 ≤ r) (ha : 0 ≤ a) :
    (mkInvoiceItem d h u r a c).isSome ↔ |a - pyRound2 (h * r)| ≤ 1/100 := by
  unfold mkInvoiceItem
  rw [if_neg (not_lt.mpr hh), if_neg (not_lt.mpr hr), if_neg (not_lt.mpr ha)]
  by_cases hc : 1/100 < |a - pyRound2 (h * r)|
  · simp [hc, not_le.mpr hc]
  · simp [hc, not_lt.mp hc]

/-- C6 witness: the test-suite item (2.5 hours at rate 100, amount 250)
satisfies the tolerance and constructs successfully. -/
theorem invoice_item_amount_validation_witness :
    (0 ≤ (5/2 : ℚ) ∧ 0 ≤ (100 : ℚ) ∧ 0 ≤ (250 : ℚ)) ∧
    ((mkInvoiceItem "Development work" (5/2) "hour" 100 250 none).isSome ↔
      |(250 : ℚ) - pyRound2 (5/2 * 100)| ≤ 1/100) := by
  refine ⟨⟨by norm_num, by norm_num, by norm_num⟩, ?_⟩
  exact invoice_item_amount_validation "Development work" (5/2) "hour" 100 250
    none (by norm_num) (by norm_num) (by norm_num)

/-! ## ai/work_processor.py: WorkLogProcessor.generate_invoice_items

After `structured_generate` returns a parsed array (an error-shaped dict
raises instead), each raw item dict is mutated:
`if "rate" not in item_dict or not item_dict["rate"]:` back-fills the
caller rate (a present value of 0 is falsy and also back-filled), and
`if "amount" not in item_dict or not item_dict["amount"]:` back-fills
`item_dict["hours"] * rate` with `rate` the caller argument (a missing
`hours` key raises KeyError there).  Every dict is then validated through
`InvoiceItem(**item_dict)`; any pydantic error propagates, so no item list
is returned (all-or-nothing).  A raw item field set to `none` models a
missing dict key. -/

structure RawItem where
  description : Option String
  hours : Option ℚ
  unit : Option String
  rate : Option ℚ
  amount : Option ℚ
  category : Option String
deriving DecidableEq

/-- Embeds the rate back-fill: a missing or falsy (zero) rate becomes the
caller-supplied rate. -/
def backfillRate (supplied : ℚ) : Option ℚ → ℚ
  | none => supplied
  | some r => if r = 0 then supplied else r

/-- Embeds the amount back-fill: a missing or falsy (zero) amount becomes
`item_dict["hours"] * rate` with the caller-supplied rate; `none` models
the KeyError raised when `hours` is missing there. -/
def backfillAmount (supplied : ℚ) (it : RawItem) : Option ℚ :=
  match it.amount with
  | some a => if a = 0 then it.hours.map (fun h => h * supplied) else some a
  | none => it.hours.map (fun h => h * supplied)

/-- Embeds back-filling one raw dict and validating it through
`InvoiceItem(**item_dict)`; `none` models an exception (KeyError, missing
required field, or the amount-invariant validator). -/
def processRawItem (supplied : ℚ) (it : RawItem) : Option AiInvoiceItem :=
  match backfillAmount supplied it, it.description, it.hours with
  | some a, some d, some h =>
    mkInvoiceItem d h (it.unit.getD "hour") (backfillRate supplied it.rate) a
      it.category
  | _, _, _ => none

def processItems (supplied : ℚ) : List RawItem → Option (List AiInvoiceItem)
  | [] => some []
  | it :: rest =>
    match processRawItem supplied it, processItems supplied rest with
    | some x, some xs => some (x :: xs)
    | _, _ => none

/-- Embeds `WorkLogProcessor.generate_invoice_items` from the point where
the structured generation result is available: an error-shaped result or
any per-item failure fails the whole call. -/
def generateInvoiceItems (supplied : ℚ)
    (parsed : Except String (List RawItem)) :
    Except String (List AiInvoiceItem) :=
  match parsed with
  | .error e => .error ("Failed to generate invoice items: " ++ e)
  | .ok raws =>
    match processItems supplied raws with
    | some items => .ok items
    | none => .error "Failed to generate invoice items: validation error"

theorem mkInvoiceItem_eq_some {d : String} {h : ℚ} {u : String} {r a : ℚ}
    {c : Option String} {itm : AiInvoiceItem}
    (hmk : mkInvoiceItem d h u r a c = some itm) :
    itm = ⟨d, h, u, r, a, c⟩ ∧ |a - pyRound2 (h * r)| ≤ 1/100 := by
  unfold mkInvoiceItem at hmk
  by_cases h1 : h < 0
  · rw [if_pos h1] at hmk; exact absurd hmk (by simp)
  rw [if_neg h1] at hmk
  by_cases h2 : r < 0
  · rw [if_pos h2] at hmk; exact absurd hmk (by simp)
  rw [if_neg h2] at hmk
  by_cases h3 : a < 0
  · rw [if_pos h3] at hmk; exact absurd hmk (by simp)
  rw [if_neg h3] at hmk
  by_cases h4 : 1/100 < |a - pyRound2 (h * r)|
  · rw [if_pos h4] at hmk; exact absurd hmk (by simp)
  rw [if_neg h4] at hmk
  exact ⟨(Option.some_inj.mp hmk).symm, not_lt.mp h4⟩

theorem processItems_ok {supplied : ℚ} :
    ∀ {raws : List RawItem} {items : List AiInvoiceItem},
      processItems supplied raws = some items →
      List.Forall₂ (fun raw itm => processRawItem supplied raw = some itm)
        raws items
  | [], items, hp => by
    simp only [processItems, Option.some_inj] at hp
    exact hp ▸ List.Forall₂.nil
  | it :: rest, items, hp => by
    simp only [processItems] at hp
    rcases hx : processRawItem supplied it with _ | x
    · rw [hx] at hp; exact absurd hp (by simp)
    rcases hxs : processItems supplied rest with _ | xs
    · rw [hx, hxs] at hp; exact absurd hp (by simp)
    rw [hx, hxs] at hp
    obtain rfl := (Option.some_inj.mp hp).symm
    exact List.Forall₂.cons hx (processItems_ok hxs)

theorem processRawItem_fields {supplied : ℚ} {raw : RawItem}
    {itm : AiInvoiceItem} (hp : processRawItem supplied raw = some itm) :
    ((raw.rate = none ∨ raw.rate = some 0) → itm.rate = supplied) ∧
    ((raw.amount = none ∨ raw.amount = some 0) →
      ∃ h0, raw.hours = some h0 ∧ itm.amount = h0 * supplied) ∧
    |itm.amount - pyRound2 (itm.hours * itm.rate)| ≤ 1/100 := by
  unfold processRawItem at hp
  rcases ha : backfillAmount supplied raw with _ | a <;> rw [ha] at hp
  · exact absurd hp (by simp)
  rcases hd : raw.description with _ | d <;> rw [hd] at hp
  · exact absurd hp (by simp)
  rcases hh : raw.hours with _ | h <;> rw [hh] at hp
  · exact absurd hp (by simp)
  obtain ⟨rfl, hinv⟩ := mkInvoiceItem_eq_some hp
  refine ⟨?_, ?_, by simpa using hinv⟩
  · rintro (hr | hr) <;> simp [backfillRate, hr]
  · rintro (hm | hm)
    · refine ⟨h, rfl, ?_⟩
      unfold backfillAmount at ha
      rw [hm, hh] at ha
      simp at ha
      exact ha.symm
    · refine ⟨h, rfl, ?_⟩
      unfold backfillAmount at ha
      rw [hm, hh] at ha
      simp at ha
      exact ha.symm

theorem processItems_mem {supplied : ℚ} :
    ∀ {raws : List RawItem} {items : List AiInvoiceItem},
      processItems supplied raws = some items →
      ∀ itm ∈ items, ∃ raw, processRawItem supplied raw = some itm
  | [], items, hp => by
    simp only [processItems, Option.some_inj] at hp
    subst hp
    intro itm hmem
    exact absurd hmem (by simp)
  | it :: rest, items, hp => by
    simp only [processItems] at hp
    rcases hx : processRawItem supplied it with _ | x <;> rw [hx] at hp
    · exact absurd hp (by simp)
    rcases hxs : processItems supplied rest with _ | xs <;> rw [hxs] at hp
    · exact absurd hp (by simp)
    obtain rfl := (Option.some_inj.mp hp).symm
    intro itm hmem
    rcases List.mem_cons.mp hmem with rfl | htail
    · exact ⟨it, hx⟩
    · exact processItems_mem hxs itm htail

theorem processItems_fails {supplied : ℚ} :
    ∀ {raws : List RawItem}, (∃ it ∈ raws, processRawItem supplied it = none) →
      processItems supplied raws = none
  | [], hfail => absurd hfail (by simp)
  | it :: rest, hfail => by
    rcases hfail with ⟨bad, hmem, hbad⟩
    rcases List.mem_cons.mp hmem with rfl | htail
    · simp only [processItems, hbad]
    · rcases hx : processRawItem supplied it with _ | x
      · simp only [processItems, hx]
      · have hrest : processItems supplied rest = none :=
          processItems_fails ⟨bad, htail, hbad⟩
        simp only [processItems, hx, hrest]

/-- C8: when the generation result parses, every raw item with a missing
(or falsy) rate gets the caller rate, every raw item with a missing (or
falsy) amount gets `hours * rate` with the caller rate, every returned
item satisfies the InvoiceItem amount invariant, the output has one item
per raw item, and a single failing item (or an error-shaped generation
result) fails the whole call, returning no items. -/
theorem generate_invoice_items_all_or_nothing (supplied : ℚ) :
    (∀ (raws : List RawItem) (items : List AiInvoiceItem),
      generateInvoiceItems supplied (.ok raws) = .ok items →
        items.length = raws.length ∧
        List.Forall₂ (fun (raw : RawItem) (itm : AiInvoiceItem) =>
          ((raw.rate = none ∨ raw.rate = some 0) → itm.rate = supplied) ∧
          ((raw.amount = none ∨ raw.amount = some 0) →
            ∃ h0, raw.hours = some h0 ∧ itm.amount = h0 * supplied)) raws items ∧
        (∀ itm ∈ items,
          |itm.amount - pyRound2 (itm.hours * itm.rate)| ≤ 1/100)) ∧
    (∀ raws : List RawItem,
      (∃ it ∈ raws, processRawItem supplied it = none) →
        generateInvoiceItems supplied (.ok raws)
          = .error "Failed to generate invoice items: validation error") ∧
    (∀ e : String, generateInvoiceItems supplied (.error e)
        = .error ("Failed to generate invoice items: " ++ e)) := by
  refine ⟨?_, ?_, fun e => rfl⟩
  · intro raws items hg
    have hg2 : (match processItems supplied raws with
        | some its => (Except.ok its : Except String (List AiInvoiceItem))
        | none =>
          Except.error "Failed to generate invoice items: validation error")
        = Except.ok items := hg
    rcases hps : processItems supplied raws with _ | its <;> rw [hps] at hg2
    · exact absurd hg2 (by simp)
    have heq : its = items := by simpa using hg2
    subst heq
    have hrel := processItems_ok hps
    refine ⟨hrel.length_eq.symm, ?_, ?_⟩
    · exact hrel.imp (fun raw itm hp => ⟨(processRawItem_fields hp).1,
        (processRawItem_fields hp).2.1⟩)
    · intro itm hmem
      obtain ⟨raw, hraw⟩ := processItems_mem hps itm hmem
      exact (processRawItem_fields hraw).2.2
  · intro raws hfail
    show (match processItems supplied raws with
        | some its => (Except.ok its : Except String (List AiInvoiceItem))
        | none =>
          Except.error "Failed to generate invoice items: validation error")
        = Except.error "Failed to generate invoice items: validation error"
    rw [processItems_fails hfail]

/-- C8 witness: one raw item with description and hours only, caller rate
100: the call succeeds with rate 100 and amount 200 back-filled and the
amount invariant holds. -/
theorem generate_invoice_items_all_or_nothing_witness :
    generateInvoiceItems 100
        (.ok [⟨some "Dev", some 2, none, none, none, none⟩])
      = .ok [⟨"Dev", 2, "hour", 100, 200, none⟩] ∧
    (([⟨"Dev", 2, "hour", 100, 200, none⟩] : List AiInvoiceItem).length
        = ([⟨some "Dev", some 2, none, none, none, none⟩] : List RawItem).length ∧
      List.Forall₂ (fun (raw : RawItem) (itm : AiInvoiceItem) =>
        ((raw.rate = none ∨ raw.rate = some 0) → itm.rate = 100) ∧
        ((raw.amount = none ∨ raw.amount = some 0) →
          ∃ h0, raw.hours = some h0 ∧ itm.amount = h0 * 100))
        [⟨some "Dev", some 2, none, none, none, none⟩]
        [⟨"Dev", 2, "hour", 100, 200, none⟩] ∧
      (∀ itm ∈ ([⟨"Dev", 2, "hour", 100, 200, none⟩] : List AiInvoiceItem),
        |itm.amount - pyRound2 (itm.hours * itm.rate)| ≤ 1/100)) := by
  have hconc : generateInvoiceItems 100
      (.ok [⟨some "Dev", some 2, none, none, none, none⟩])
      = .ok [⟨"Dev", 2, "hour", 100, 200, none⟩] := by
    have hround : pyRound2 ((2 : ℚ) * 100) = 200 := by
      norm_num [pyRound2, roundHalfEven]
    simp [generateInvoiceItems, processItems, processRawItem, backfillAmount,
      backfillRate, mkInvoiceItem, hround]
    norm_num
  exact ⟨hconc, (generate_invoice_items_all_or_nothing 100).1
    [⟨some "Dev", some 2, none, none, none, none⟩]
    [⟨"Dev", 2, "hour", 100, 200, none⟩] hconc⟩

/-! ## ai/ollama_client.py: _extract_json_from_content

A dict is returned unchanged.  A string is stripped, markdown code fences
are removed (a leading three-backtick fence, optionally tagged json, and a
trailing three-backtick fence), and the result is handed to `json.loads`.
On a JSONDecodeError, `re.search` with the DOTALL pattern of an opening
brace, a greedy any-characters, and a closing brace is tried: the greedy
match runs from the first opening brace to the last closing brace of the
whole text.  If that substring parses it is returned; otherwise ValueError
is raised carrying the original decode error.

`json.loads` is embedded as a fuelled recursive-descent parser over the
character list (numbers become rationals; the four-hex-digit unicode
escape is not modelled). -/

def quoteChar : Char := Char.ofNat 34

def backslashChar : Char := Char.ofNat 92

def openBraceChar : Char := Char.ofNat 123

def closeBraceChar : Char := Char.ofNat 125

def isJsonWs (c : Char) : Bool := c = ' ' || c = '\t' || c = '\n' || c = '\r'

def skipWs : List Char → List Char
  | [] => []
  | c :: cs => if isJsonWs c then skipWs cs else c :: cs

inductive Json where
  | null
  | bool (b : Bool)
  | num (q : ℚ)
  | str (s : String)
  | arr (elems : List Json)
  | obj (fields : List (String × Json))

def digitsToNat (ds : List Char) : ℕ :=
  ds.foldl (fun a c => a * 10 + (c.toNat - 48)) 0

def spanDigits : List Char → List Char × List Char
  | [] => ([], [])
  | c :: cs =>
    if c.isDigit then
      let p := spanDigits cs
      (c :: p.1, p.2)
    else ([], c :: cs)

/-- Parses a JSON number (optional minus, integer part, optional fraction,
optional exponent) from the head of the character list. -/
def parseNumberFrom (cs : List Char) : Option (ℚ × List Char) :=
  let headSign : Bool × List Char :=
    match cs with
    | c :: rest => if c = '-' then (true, rest) else (false, cs)
    | [] => (false, [])
  match spanDigits headSign.2 with
  | ([], _) => none
  | (ds, cs2) =>
    let mant0 : ℚ := (digitsToNat ds : ℚ)
    let fracStep : Option (ℚ × List Char) :=
      match cs2 with
      | c :: rest =>
        if c = '.' then
          match spanDigits rest with
          | ([], _) => none
          | (fs, cs3) =>
            some (mant0 + (digitsToNat fs : ℚ) / ((10 : ℚ) ^ fs.length), cs3)
        else some (mant0, cs2)
      | [] => some (mant0, cs2)
    match fracStep with
    | none => none
    | some (mant, cs3) =>
      let expStep : Option (ℚ × List Char) :=
        match cs3 with
        | c :: rest =>
          if c = 'e' || c = 'E' then
            let signRest : Bool × List Char :=
              match rest with
              | d :: rr =>
                if d = '-' then (true, rr)
                else if d = '+' then (false, rr)
                else (false, rest)
              | [] => (false, rest)
            match spanDigits signRest.2 with
            | ([], _) => none
            | (es, cs4) =>
              let ex := digitsToNat es
              some ((if signRest.1 then mant / (10 : ℚ) ^ ex
                     else mant * (10 : ℚ) ^ ex), cs4)
          else some (mant, cs3)
        | [] => some (mant, cs3)
      match expStep with
      | none => none
      | some (v, cs4) => some ((if headSign.1 then -v else v), cs4)

/-- Parses the body of a JSON string literal after the opening quote,
returning the decoded characters and the remainder after the closing
quote. -/
def parseStringBody : ℕ → List Char → Option (List Char × List Char)
  | 0, _ => none
  | _, [] => none
  | fuel + 1, c :: cs =>
    if c = quoteChar then some ([], cs)
    else if c = backslashChar then
      match cs with
      | [] => none
      | e :: cs2 =>
        let ec :=
          if e = 'n' then '\n'
          else if e = 't' then '\t'
          else if e = 'r' then '\r'
          else if e = 'b' then Char.ofNat 8
          else if e = 'f' then Char.ofNat 12
          else e
        match parseStringBody fuel cs2 with
        | some (s, rest) => some (ec :: s, rest)
        | none => none
    else
      match parseStringBody fuel cs with
      | some (s, rest) => some (c :: s, rest)
      | none => none

mutual

def parseValue : ℕ → List Char → Option (Json × List Char)
  | 0, _ => none
  | fuel + 1, cs =>
    match skipWs cs with
    | [] => none
    | c :: rest =>
      if c = openBraceChar then
        match parseMembers fuel (skipWs rest) true with
        | some (ms, r) => some (.obj ms, r)
        | none => none
      else if c = '[' then
        match parseElems fuel (skipWs rest) true with
        | some (vs, r) => some (.arr vs, r)
        | none => none
      else if c = quoteChar then
        match parseStringBody (fuel + 1) rest with
        | some (s, r) => some (.str (String.mk s), r)
        | none => none
      else if c = 'n' then
        match rest with
        | 'u' :: 'l' :: 'l' :: r => some (.null, r)
        | _ => none
      else if c = 't' then
        match rest with
        | 'r' :: 'u' :: 'e' :: r => some (.bool true, r)
        | _ => none
      else if c = 'f' then
        match rest with
        | 'a' :: 'l' :: 's' :: 'e' :: r => some (.bool false, r)
        | _ => none
      else
        match parseNumberFrom (c :: rest) with
        | some (q, r) => some (.num q, r)
        | none => none

def parseElems : ℕ → List Char → Bool → Option (List Json × List Char)
  | 0, _, _ => none
  | _ + 1, [], _ => none
  | fuel + 1, c :: rest, isFirst =>
    if isFirst && c = ']' then some ([], rest)
    else
      match parseValue fuel (c :: rest) with
      | some (v, r1) =>
        match skipWs r1 with
        | ',' :: r2 =>
          match parseElems fuel (skipWs r2) false with
          | some (vs, r3) => some (v :: vs, r3)
          | none => none
        | ']' :: r2 => some ([v], r2)
        | _ => none
      | none => none

def parseMembers : ℕ → List Char → Bool →
    Option (List (String × Json) × List Char)
  | 0, _, _ => none
  | _ + 1, [], _ => none
  | fuel + 1, c :: rest, isFirst =>
    if isFirst && c = closeBraceChar then some ([], rest)
    else if c = quoteChar then
      match parseStringBody (fuel + 1) rest with
      | some (k, r1) =>
        match skipWs r1 with
        | ':' :: r2 =>
          match parseValue fuel r2 with
          | some (v, r3) =>
            match skipWs r3 with
            | ',' :: r4 =>
              match parseMembers fuel (skipWs r4) false with
              | some (ms, r5) => some ((String.mk k, v) :: ms, r5)
              | none => none
            | c2 :: r4 =>
              if c2 = closeBraceChar then some ([(String.mk k, v)], r4)
              else none
            | [] => none
          | none => none
        | _ => none
      | none => none
    else none

end

/-- Embeds `json.loads`: a single value, then only whitespace may remain
(anything else is the Extra data error); a failed parse is the Expecting
value error. -/
def jsonLoads (s : String) : Except String Json :=
  match parseValue (2 * s.data.length + 2) s.data with
  | some (v, rest) =>
    if (skipWs rest).isEmpty then .ok v else .error "Extra data"
  | none => .error "Expecting value"

/-- Embeds Python `str.strip()`. -/
def pyStrip (s : String) : String :=
  String.mk
    (((s.data.dropWhile Char.isWhitespace).reverse.dropWhile
      Char.isWhitespace).reverse)

def strStartsWith (s pat : String) : Bool := pat.data.isPrefixOf s.data

def strEndsWith (s pat : String) : Bool := pat.data.isSuffixOf s.data

def strDropLeft (s : String) (n : ℕ) : String := String.mk (s.data.drop n)

def strDropRight (s : String) (n : ℕ) : String :=
  String.mk (s.data.take (s.data.length - n))

/-- Embeds the fence-stripping of `_extract_json_from_content`: strip,
remove a leading three-backtick fence (json-tagged or plain), remove a
trailing three-backtick fence, strip again. -/
def stripFences (s : String) : String :=
  let c0 := pyStrip s
  let c1 :=
    if strStartsWith c0 "```json" then strDropLeft c0 7
    else if strStartsWith c0 "```" then strDropLeft c0 3
    else c0
  let c2 := if strEndsWith c1 "```" then strDropRight c1 3 else c1
  pyStrip c2

/-- Embeds `re.search` of the DOTALL pattern brace, greedy dot-star,
brace: the leftmost viable start is the first opening brace of the text
and the greedy repetition extends the match to the last closing brace of
the whole text; no match when no closing brace follows the first opening
brace. -/
def greedySpan (s : String) : Option String :=
  let cs := s.data
  match cs.findIdx? (fun c => c = openBraceChar),
      (cs.reverse.findIdx? (fun c => c = closeBraceChar)).map
        (fun k => cs.length - 1 - k) with
  | some i, some j =>
    if i < j then some (String.mk ((cs.drop i).take (j - i + 1))) else none
  | _, _ => none

/-- Models `Union[str, Dict]`, the content argument of
`_extract_json_from_content`. -/
inductive PyContent where
  | dict (fields : List (String × Json))
  | str (s : String)

/-- Embeds `OllamaClient._extract_json_from_content`. -/
def extractJsonFromContent : PyContent → Except String Json
  | .dict d => .ok (.obj d)
  | .str s =>
    match jsonLoads (stripFences s) with
    | .ok v => .ok v
    | .error e =>
      match greedySpan (stripFences s) with
      | some sub =>
        match jsonLoads sub with
        | .ok v => .ok v
        | .error _ => .error ("Failed to parse JSON from content: " ++ e)
      | none => .error ("Failed to parse JSON from content: " ++ e)

def isOkB {ε α : Type} : Except ε α → Bool
  | .ok _ => true
  | .error _ => false

/-- A stray closing brace after a leading JSON object. -/
def cexContent : String := "\x7b\"a\": 1\x7d \x7d"

/-- The first brace-delimited substring of `cexContent`, which parses. -/
def cexLeadingObject : String := "\x7b\"a\": 1\x7d"

/-- C10 counterexample: on a JSON object followed by a stray closing
brace, direct parsing fails and the greedy regex spans from the first
opening brace to the last closing brace, which does not parse, so the
extractor raises — although the first brace-delimited substring is a
parseable object, against which the claim promises success. -/
theorem extract_json_greedy_cex :
    extractJsonFromContent (.str cexContent)
      = .error "Failed to parse JSON from content: Extra data" ∧
    jsonLoads cexLeadingObject = .ok (.obj [("a", .num 1)]) ∧
    greedySpan (stripFences cexContent) = some cexContent := by
  exact ⟨rfl, rfl, rfl⟩

/-- C10 (amended): a structured object is returned unchanged; a string has
fences stripped and is parsed directly; when direct parsing fails, the
substring from the first opening brace to the last closing brace (the
greedy regex match) is parsed instead, so a JSON object embedded in prose
whose last closing brace ends the object is still extracted; an error
carrying the original decode error is raised exactly when neither the
stripped text nor that greedy substring parses — even if a smaller
brace-delimited substring would parse. -/
theorem extract_json_greedy_amended :
    (∀ d, extractJsonFromContent (.dict d) = .ok (.obj d)) ∧
    (∀ s v, jsonLoads (stripFences s) = .ok v →
      extractJsonFromContent (.str s) = .ok v) ∧
    (∀ s e sub v, jsonLoads (stripFences s) = .error e →
      greedySpan (stripFences s) = some sub → jsonLoads sub = .ok v →
      extractJsonFromContent (.str s) = .ok v) ∧
    (∀ s e, jsonLoads (stripFences s) = .error e →
      (∀ sub, greedySpan (stripFences s) = some sub →
        isOkB (jsonLoads sub) = false) →
      extractJsonFromContent (.str s)
        = .error ("Failed to parse JSON from content: " ++ e)) := by
  refine ⟨fun d => rfl, ?_, ?_, ?_⟩
  · intro s v h
    simp only [extractJsonFromContent]
    rw [h]
  · intro s e sub v h hspan hsub
    simp only [extractJsonFromContent]
    rw [h]
    dsimp only
    rw [hspan]
    dsimp only
    rw [hsub]
  · intro s e h hfailAll
    simp only [extractJsonFromContent]
    rw [h]
    dsimp only
    cases hspan : greedySpan (stripFences s) with
    | none => rfl
    | some sub =>
      have hbad := hfailAll sub hspan
      dsimp only
      cases hjl : jsonLoads sub with
      | ok v => rw [hjl] at hbad; exact absurd hbad (by simp [isOkB])
      | error e2 => rfl

/-- A JSON object embedded in surrounding prose. -/
def proseContent : String := "Result: \x7b\"a\": 2\x7d"

/-- The greedy-span substring of `proseContent`. -/
def proseSpan : String := "\x7b\"a\": 2\x7d"

/-- C10 amended witness: prose followed by an object fails direct parsing,
the greedy span is the object, and extraction succeeds with it. -/
theorem extract_json_greedy_amended_witness :
    jsonLoads (stripFences proseContent) = .error "Expecting value" ∧
    greedySpan (stripFences proseContent) = some proseSpan ∧
    jsonLoads proseSpan = .ok (.obj [("a", .num 2)]) ∧
    extractJsonFromContent (.str proseContent) = .ok (.obj [("a", .num 2)]) := by
  refine ⟨rfl, rfl, rfl, ?_⟩
  exact extract_json_greedy_amended.2.2.1 proseContent "Expecting value"
    proseSpan (.obj [("a", .num 2)]) rfl rfl rfl

/-! ## export/pdf_generator.py: generate_invoice_pdf

The notes block condition (lines 247-259): the block is appended iff
`invoice.notes` is truthy, `template.items_table.show_notes` is set, the
stripped text is non-empty and it is not trivial — equal, lowercased, to
the client name plus " invoice", to "invoice", or to the client name.

However the element list is built in order and the totals section comes
before the notes check: `_create_totals_section` evaluates the name
`HRFlowable`, which is never imported in pdf_generator.py, so executing
it raises NameError and every render fails before the notes logic runs.
(The module cannot even be imported: the annotation of  `_format_date`
uses the unbound name `date` — only the `datetime` module is imported —
and `from invoiceagent.export.models import ...` names a module absent
from the source tree.)  Python lowercasing is embedded with
`String.toLower` and name-resolution failure as an `Except.error`. -/

/-- Embeds Python `str.lower()` (ASCII case folding). -/
def pyLower (s : String) : String := String.mk (s.data.map Char.toLower)

/-- Embeds the trivial-note test of generate_invoice_pdf. -/
def isTrivialNote (clientName notesText : String) : Bool :=
  pyLower notesText = pyLower clientName ++ " invoice" ||
  pyLower notesText = "invoice" ||
  pyLower notesText = pyLower clientName

/-- Embeds the condition under which the notes block is appended:
`invoice.notes` truthy (None or empty string is falsy), the template
show_notes flag, non-empty stripped text, and not trivial. -/
def notesBlockIncluded (showNotes : Bool) (clientName : String)
    (notes : Option String) : Bool :=
  match notes with
  | none => false
  | some ns =>
    if ns ≠ "" && showNotes then
      pyStrip ns ≠ "" && !(isTrivialNote clientName (pyStrip ns))
    else false

inductive RenderElem where
  | headerBlock
  | spacer
  | clientBlock
  | itemsTable
  | totalsBlock
  | notesTitle
  | notesText (s : String)
  | footerBlock

/-- Embeds `_create_totals_section`: its body unconditionally evaluates
the unbound name `HRFlowable` (never imported in the module), which in
Python raises NameError before any element is returned. -/
def createTotalsSection : Except String (List RenderElem) :=
  .error "NameError: name HRFlowable is not defined"

/-- Embeds the element pipeline of `generate_invoice_pdf` at the
block-sequencing level: header, client and items sections build layout
elements, the totals section is created before the notes condition is
evaluated, then the notes block (under `notesBlockIncluded`) and the
footer. -/
def generateInvoicePdfElems (showNotes : Bool) (clientName : String)
    (notes : Option String) : Except String (List RenderElem) :=
  match createTotalsSection with
  | .error e => .error e
  | .ok tot =>
    let nts :=
      if notesBlockIncluded showNotes clientName notes then
        [RenderElem.spacer, RenderElem.notesTitle,
         RenderElem.notesText (pyStrip (notes.getD ""))]
      else []
    .ok ([RenderElem.headerBlock, RenderElem.spacer, RenderElem.clientBlock,
          RenderElem.spacer, RenderElem.itemsTable, RenderElem.spacer] ++
         tot ++ nts ++ [RenderElem.footerBlock])

/-- C9 (code bug): the notes-inclusion predicate of the source does match
the claim for a shown-notes template — a meaningful note is included and
a trivial or empty one suppressed — but every render raises NameError in
the totals section (the unbound name HRFlowable) before the notes block is
reached, so notes are never suppressed or included "without failing the
render". -/
theorem generate_invoice_pdf_crashes_before_notes :
    (∀ (sn : Bool) (cn : String) (ns : Option String),
      generateInvoicePdfElems sn cn ns
        = .error "NameError: name HRFlowable is not defined") ∧
    notesBlockIncluded true "Acme" (some "Payment due within 30 days") = true ∧
    notesBlockIncluded true "Acme" (some "Acme Invoice") = false ∧
    notesBlockIncluded true "Acme" (some "invoice") = false ∧
    notesBlockIncluded true "Acme" (some "  ") = false ∧
    notesBlockIncluded true "Acme" none = false := by
  exact ⟨fun sn cn ns => rfl, by decide, by decide, by decide, by decide, rfl⟩

end InvoiceAgent
